import Mathlib

/-!
Verification of the force-subscribe gating engine of the `fsubasp` bot.

The development shallowly embeds the gating logic of `src/fsub.py`,
`src/storage.py` and `src/app.py`: pure Python functions become Lean
functions on `List Char` / `Nat` / `Int`, the storage backend becomes an
explicit `Store` record threaded through the handlers, and transport calls
become an explicit effect list.  External collaborators (the Telegram
transport, the stdlib pseudo-random generator) are modelled by explicit
deterministic parameters.
-/

namespace FsubVerify

/-! ## Python string primitives

Models of the `str` operations used by `src/fsub.py` and `src/app.py`:
`str.strip()` (whitespace trim at both ends), `str.split(sep, 1)` (split at
the first occurrence), `str.startswith`, `str.lstrip('@')`. -/

/-- Python whitespace characters stripped by `str.strip()` (ASCII part). -/
def py_ws (c : Char) : Bool :=
  c = ' ' || c = '\t' || c = '\n' || c = '\r' || c = '\x0b' || c = '\x0c'

/-- Drop trailing whitespace (the right half of `str.strip()`). -/
def drop_trail (l : List Char) : List Char :=
  (l.reverse.dropWhile py_ws).reverse

/-- Character-list model of `str.strip()`: drop leading then trailing whitespace. -/
def strip_chars (l : List Char) : List Char :=
  drop_trail (l.dropWhile py_ws)

/-- String-level model of `str.strip()`. -/
def py_strip (s : String) : String :=
  ⟨strip_chars s.data⟩

/-- Split at the first occurrence of `c`, as Python `s.split(c, 1)` does when
`c` occurs; `none` when `c` does not occur. -/
def split_first (c : Char) : List Char → Option (List Char × List Char)
  | [] => none
  | x :: xs =>
    if x = c then some ([], xs)
    else
      match split_first c xs with
      | some p => some (x :: p.1, p.2)
      | none => none

/-- Embedding of `_split_target` (src/fsub.py:10, imported by src/app.py under
the name `split_target`): strip the raw string; if it contains `|`, split once
on the first occurrence and strip both parts; else if it starts with `@`,
synthesize the public URL from the handle with all leading `@` stripped
(`str.lstrip('@')`); else no URL. -/
def split_target (raw : String) : String × Option String :=
  let s := strip_chars raw.data
  match split_first '|' s with
  | some p => (⟨strip_chars p.1⟩, some ⟨strip_chars p.2⟩)
  | none =>
    if s.head? = some '@' then
      (⟨s⟩, some ⟨"https://t.me/".data ++ s.dropWhile (fun c => c = '@')⟩)
    else (⟨s⟩, none)

/-! ## Visibility selector

`_pick_visible_for_user` (src/fsub.py:40, imported by src/app.py under the
name `visible_targets_for_user`) computes
`seed = (user_id * 1000003) ^ (offset * 9176) ^ len(targets)`, seeds
`random.Random(seed)`, shuffles a copy of the target list and takes the first
`k` elements (after clamping `k = max(1, min(k, len(targets)))`).

The stdlib generator `random.Random` is an external collaborator; it is
modelled by an explicit 64-bit linear congruential stream standing in for the
Mersenne Twister.  The properties proved below (determinism, permutation,
length) depend only on the stream being a deterministic function of the seed,
which holds for the real seeded generator as well. -/

/-- Deterministic 64-bit pseudo-random stream step (model of the external
stdlib generator state transition). -/
def lcgNext (s : Nat) : Nat :=
  (6364136223846793005 * s + 1442695040888963407) % (2 ^ 64)

/-- Remove the element at index `j`, returning it and the remainder;
`none` when `j` is out of range. -/
def pickOut : Nat → List α → Option (α × List α)
  | _, [] => none
  | 0, x :: xs => some (x, xs)
  | j + 1, x :: xs =>
    match pickOut j xs with
    | some p => some (p.1, x :: p.2)
    | none => none

/-- Seeded shuffle, fuelled by the list length: repeatedly draw a
stream-selected element to the front. -/
def shuffleFuel : Nat → Nat → List α → List α
  | 0, _, _ => []
  | _, _, [] => []
  | n + 1, s, l =>
    match pickOut (s % l.length) l with
    | some p => p.1 :: shuffleFuel n (lcgNext s) p.2
    | none => []

/-- Model of `random.Random(seed).shuffle(arr)`: a deterministic permutation
of the input keyed by the seed. -/
def seededShuffle (seed : Nat) (l : List α) : List α :=
  shuffleFuel l.length seed l

/-- Embedding of `_pick_visible_for_user` (src/fsub.py:40). -/
def visible_targets_for_user (targets : List String) (user_id : Nat)
    (offset : Nat) (k : Nat) : List String :=
  if targets.isEmpty then []
  else
    let k2 := max 1 (min k targets.length)
    let seed := Nat.xor (Nat.xor (user_id * 1000003) (offset * 9176)) targets.length
    (seededShuffle seed targets).take k2

/-! ## Membership verifier

`is_user_joined_all` (src/fsub.py:26).  A membership probe either raises
(any transport/permission error) or returns an object whose `status`
attribute is read with `getattr(member, "status", None)`; the environment
`env` models `context.bot.get_chat_member` as a function from
(check handle, user id) to that outcome. -/

/-- Outcome of one membership query: the `except Exception` branch, or a
successful reply carrying `getattr(member, "status", None)`. -/
inductive MemberResult where
  | queryError
  | ok (status : Option String)
deriving DecidableEq

/-- Embedding of `is_user_joined_all` (src/fsub.py:26): empty target list is
vacuously joined; a query error or a "left"/"kicked" status denies; any other
outcome moves to the next target. -/
def is_user_joined_all (env : String → Nat → MemberResult) (user_id : Nat) :
    List String → Bool
  | [] => true
  | raw :: rest =>
    match env (split_target raw).1 user_id with
    | .queryError => false
    | .ok status =>
      if status = some "left" ∨ status = some "kicked" then false
      else is_user_joined_all env user_id rest

/-! ## Storage model

`src/storage.py` defines the state record and the SQLite/Mongo backends.
`src/app.py` additionally reads `st.last_gate_key` and calls
`STORE.set_last_gate_key`, which the storage module under `src/` does not
implement; that missing column and operation are modelled from the spec
(§3 UserRotationState, §4.5 `set_gate_key`). -/

/-- Embedding of `FileRecord` (src/storage.py:10). -/
structure FileRecord where
  file_id : String
  db_chat_id : Int
  db_message_id : Int
  kind : String
  caption : Option String
deriving DecidableEq

/-- Modelled from the spec: `UserRotationState` (§3).  The fields `user_id`,
`offset`, `last_rotated_ts` are the embedding of `UserFsubState`
(src/storage.py:18); the field `last_gate_key` is absent from
src/storage.py but is read by src/app.py (`st.last_gate_key`) and specified
in §3 with default `""`. -/
structure UserFsubState where
  user_id : Nat
  offset : Nat
  last_gate_key : String
  last_rotated_ts : Nat
deriving DecidableEq

/-- The persistent store visible to the gating engine: file records, per-user
rotation state, and skip counters (absent keys read as counter 0, matching the
SQL upsert / Mongo `$inc` semantics). -/
structure Store where
  files : String → Option FileRecord
  states : Nat → Option UserFsubState
  skips : String → Nat

/-- Write one user's state row (the effect of an SQL INSERT/UPDATE on the
`user_fsub_state` table keyed by `user_id`). -/
def setState (s : Store) (u : Nat) (st : UserFsubState) : Store :=
  ⟨s.files, fun v => if v = u then some st else s.states v, s.skips⟩

/-- Embedding of `SQLiteStorage.get_user_state` (src/storage.py:110): return
the stored row, or create, persist and return the zero default.  The default
`last_gate_key = ""` is the spec-modelled column (§3). -/
def get_user_state (s : Store) (u : Nat) : Store × UserFsubState :=
  match s.states u with
  | some st => (s, st)
  | none => (setState s u ⟨u, 0, "", 0⟩, ⟨u, 0, "", 0⟩)

/-- Embedding of `SQLiteStorage.bump_rotate` (src/storage.py:126) run
sequentially: read the state, write `offset+1` and `last_rotated_ts = now`,
return the new state.  The spec-modelled `last_gate_key` column is untouched
by the UPDATE.  (Its non-atomicity under interleaving is modelled separately
below.) -/
def bump_rotate (s : Store) (u : Nat) (now : Nat) : Store × UserFsubState :=
  let p := get_user_state s u
  let st2 : UserFsubState := ⟨u, p.2.offset + 1, p.2.last_gate_key, now⟩
  (setState p.1 u st2, st2)

/-- Modelled from the spec: `set_gate_key(user_id, key)` (§4.5), called by
src/app.py as `STORE.set_last_gate_key` but absent from src/storage.py.
Like the sibling `set_rotated_ts` UPDATE (src/storage.py:137), it updates an
existing row and is a no-op for a missing one. -/
def set_last_gate_key (s : Store) (u : Nat) (key : String) : Store :=
  match s.states u with
  | some st => setState s u ⟨st.user_id, st.offset, key, st.last_rotated_ts⟩
  | none => s

/-- Embedding of `SQLiteStorage.inc_skip` (src/storage.py:145): upsert-add
`n` to the counter of `check_chat`. -/
def inc_skip (s : Store) (c : String) (n : Nat) : Store :=
  ⟨s.files, s.states, fun d => if d = c then s.skips d + n else s.skips d⟩

/-! ## Gate state machine

Handlers from `src/app.py`, embedded as store transformers that also emit the
transport calls they make. -/

/-- A transport call made by a handler (send/copy/answer/delete), in order of
invocation. -/
inductive Effect where
  | answerPlain
  | answerAlert (text : String)
  | deleteGateMessage
  | copyMessage (chat_id : Int) (from_chat_id : Int) (message_id : Int)
  | sendMessage (chat_id : Int) (text : String)
deriving DecidableEq

/-- The gate key computed by `_send_gate` (src/app.py:131):
`file_id or "__none__"` — Python `or` also maps the empty string to the
sentinel. -/
def gate_key_of (file_id : Option String) : String :=
  match file_id with
  | none => "__none__"
  | some f => if f = "" then "__none__" else f

/-- Fold `STORE.inc_skip(split_target(raw)[0], 1)` over a target batch, as the
abandonment loop of `_send_gate` (src/app.py:141) does. -/
def inc_skips_for (s : Store) (batch : List String) : Store :=
  batch.foldl (fun acc raw => inc_skip acc (split_target raw).1 1) s

/-- Embedding of the state-updating part of `_send_gate` (src/app.py:126):
compute the gate key; load the user state; if the stored `last_gate_key` is
non-empty and differs, charge a skip to every target visible under the
current offset and bump rotation; then set the gate key if it changed.
Returns the final store and the state used to render the keyboard.
(`targets` is `CFG.force_sub_targets`, `k` is `CFG.max_join_buttons`,
`now` the wall clock read by `bump_rotate`.) -/
def send_gate (targets : List String) (k : Nat) (now : Nat) (store : Store)
    (user_id : Nat) (file_id : Option String) : Store × UserFsubState :=
  let gk := gate_key_of file_id
  let p1 := get_user_state store user_id
  let p2 :=
    if p1.2.last_gate_key ≠ "" ∧ p1.2.last_gate_key ≠ gk then
      let prev := visible_targets_for_user targets user_id p1.2.offset k
      bump_rotate (inc_skips_for p1.1 prev) user_id now
    else p1
  if p2.2.last_gate_key ≠ gk then
    get_user_state (set_last_gate_key p2.1 user_id gk) user_id
  else p2

/-- Embedding of `_send_file` (src/app.py:173) as its transport calls: look
the record up; if absent, send the not-found notice; else invoke the copy
(`copyOk` models whether the transport copy raises; on failure the fallback
notice is sent). -/
def send_file (store : Store) (chat_id : Int) (copyOk : Bool)
    (file_id : String) : List Effect :=
  match store.files file_id with
  | none => [.sendMessage chat_id "File tidak ditemukan / sudah dihapus dari DB."]
  | some r =>
    .copyMessage chat_id r.db_chat_id r.db_message_id ::
      (if copyOk then []
       else [.sendMessage chat_id "Gagal ambil file dari DB. Cek akses bot di DB target."])

/-- Model of Python `str.startswith`: byte-for-byte prefix test on the
character list. -/
def starts_with : List Char → List Char → Bool
  | _, [] => true
  | [], _ :: _ => false
  | x :: xs, y :: ys => x = y && starts_with xs ys

/-- `data.split(":", 1)[1]` for the callback payload (src/app.py:231); the
handler only reaches it when a `:` is present. -/
def after_first_colon (data : String) : String :=
  match split_first ':' data.data with
  | some p => ⟨p.2⟩
  | none => ""

/-- Python truthiness of the optional gate key (`if file_id:` in
src/app.py:248): `None` and the empty string are both falsy. -/
def py_truthy : Option String → Bool
  | none => false
  | some f => if f = "" then false else true

/-- Embedding of `done_cb` (src/app.py:221): parse the gate key from the
callback payload (`__none__` maps to no file); verify membership; on failure
answer with the transient alert and change nothing; on success answer, make a
best-effort delete of the gate message, clear `last_gate_key`, and either
deliver the file — only when `file_id` is truthy, i.e. neither `None` nor the
empty string — or send the plain access-granted message. -/
def done_cb (env : String → Nat → MemberResult) (targets : List String)
    (store : Store) (user_id : Nat) (chat_id : Int) (data : String)
    (copyOk : Bool) : Store × List Effect :=
  if ¬ starts_with data.data "fsub_done:".data then (store, [.answerPlain])
  else
    let fid := py_strip (after_first_colon data)
    let file_id : Option String := if fid = "__none__" then none else some fid
    if is_user_joined_all env user_id targets = false then
      (store, [.answerAlert "Masih belum join semua."])
    else
      let store1 := set_last_gate_key store user_id ""
      let fx :=
        if py_truthy file_id then send_file store1 chat_id copyOk fid
        else [.sendMessage chat_id "✅ Oke, akses kebuka."]
      (store1, .answerPlain :: .deleteGateMessage :: fx)

/-- Outcome reported to the user by the explicit-rotate action. -/
inductive RotateOutcome where
  | rejected
  | rotated
deriving DecidableEq

/-- Modelled from the spec: the explicit-rotate handler (§4.4 "Explicit
rotate") is absent from src/ — src/fsub.py renders the rotate button
(`rotate_callback_data` in `build_join_keyboard`) but src/app.py registers no
handler for it and src/config.py has no `rotate_seconds`.  Per the spec: if
less than `rotate_seconds` has elapsed since `last_rotated_ts`, reject as a
transient notice with no state change; otherwise charge skips to the
currently visible batch and bump rotation. -/
def rotate_action (targets : List String) (k : Nat) (rotate_seconds : Nat)
    (now : Nat) (store : Store) (user_id : Nat) : RotateOutcome × Store :=
  let p := get_user_state store user_id
  if now - p.2.last_rotated_ts < rotate_seconds then (.rejected, p.1)
  else
    let vis := visible_targets_for_user targets user_id p.2.offset k
    (.rotated, (bump_rotate (inc_skips_for p.1 vis) user_id now).1)

/-! ## Concurrency model of `bump_rotate`

`SQLiteStorage.bump_rotate` (src/storage.py:126) reads the offset with one
statement and writes `read + 1` back with another, so a concurrent schedule
interleaves a read event and a write event per caller.
`MongoStorage.bump_rotate` (src/storage.py:204) issues a single
`find_one_and_update` with `$inc: {offset: 1}`, one atomic event. -/

/-- One storage event of a concurrent `bump_rotate` schedule, tagged by the
calling process. -/
inductive BumpEv where
  | readOff (pid : Nat)
  | writeOff (pid : Nat)
  | atomicInc (pid : Nat)
deriving DecidableEq

/-- The process tag of an event. -/
def evPid : BumpEv → Nat
  | .readOff p => p
  | .writeOff p => p
  | .atomicInc p => p

/-- Shared offset plus each process's private register holding the offset it
read (`st.offset` in src/storage.py:127). -/
structure ConcState where
  offset : Nat
  regs : Nat → Nat

/-- Event semantics: a read copies the shared offset into the caller's
register; a write stores `register + 1` (src/storage.py:128-133); an atomic
increment adds one in a single step (`$inc`, src/storage.py:208). -/
def stepEv (s : ConcState) : BumpEv → ConcState
  | .readOff p => ⟨s.offset, fun q => if q = p then s.offset else s.regs q⟩
  | .writeOff p => ⟨s.regs p + 1, s.regs⟩
  | .atomicInc _ => ⟨s.offset + 1, s.regs⟩

/-- Run a schedule of storage events. -/
def runEvs (s : ConcState) (evs : List BumpEv) : ConcState :=
  evs.foldl stepEv s

/-- `evs` is an interleaving of `n` concurrent SQLite `bump_rotate` calls:
process `p`'s subsequence is exactly its read followed by its write, and
every event belongs to one of the `n` processes. -/
def isSqliteSchedule (evs : List BumpEv) (n : Nat) : Prop :=
  (∀ p, p < n → evs.filter (fun e => evPid e = p) = [BumpEv.readOff p, BumpEv.writeOff p]) ∧
    ∀ e ∈ evs, evPid e < n

/-- `evs` is an interleaving of `n` concurrent Mongo `bump_rotate` calls:
each call is a single atomic event, so the schedules are exactly the
permutations of the `n` atomic increments. -/
def isMongoSchedule (evs : List BumpEv) (n : Nat) : Prop :=
  evs.Perm ((List.range n).map BumpEv.atomicInc)

/-! ## Lemmas: the seeded shuffle is a permutation -/

theorem pickOut_spec {α : Type} :
    ∀ (j : Nat) (l : List α), j < l.length →
      ∃ x rest, pickOut j l = some (x, rest) ∧
        List.Perm (x :: rest) l ∧ rest.length + 1 = l.length := by
  intro j
  induction j with
  | zero =>
    intro l hl
    match l, hl with
    | x :: xs, _ => exact ⟨x, xs, rfl, List.Perm.refl _, rfl⟩
  | succ j ih =>
    intro l hl
    match l, hl with
    | x :: xs, hl =>
      have hj : j < xs.length := by simpa using Nat.lt_of_succ_lt_succ hl
      obtain ⟨y, ys, hpick, hperm, hlen⟩ := ih xs hj
      refine ⟨y, x :: ys, ?_, ?_, ?_⟩
      · simp [pickOut, hpick]
      · exact List.Perm.trans (List.Perm.swap x y ys) (List.Perm.cons x hperm)
      · simp only [List.length_cons]
        omega

theorem shuffleFuel_perm {α : Type} :
    ∀ (n s : Nat) (l : List α), l.length = n →
      List.Perm (shuffleFuel n s l) l := by
  intro n
  induction n with
  | zero =>
    intro s l hl
    have : l = [] := List.eq_nil_of_length_eq_zero hl
    subst this
    exact List.Perm.refl _
  | succ n ih =>
    intro s l hl
    match l, hl with
    | x :: xs, hl =>
      have hpos : 0 < (x :: xs).length := Nat.succ_pos _
      have hj : s % (x :: xs).length < (x :: xs).length := Nat.mod_lt _ hpos
      obtain ⟨y, rest, hpick, hperm, hlen⟩ := pickOut_spec _ _ hj
      have hrest : rest.length = n := by
        simp only [List.length_cons] at hlen hl
        omega
      have hpick2 : pickOut (s % (xs.length + 1)) (x :: xs) = some (y, rest) := by
        simpa using hpick
      have hstep : shuffleFuel (n + 1) s (x :: xs)
          = y :: shuffleFuel n (lcgNext s) rest := by
        simp [shuffleFuel, hpick2]
      rw [hstep]
      exact List.Perm.trans (List.Perm.cons y (ih (lcgNext s) rest hrest)) hperm

theorem seededShuffle_perm {α : Type} (seed : Nat) (l : List α) :
    List.Perm (seededShuffle seed l) l :=
  shuffleFuel_perm l.length seed l rfl

/-! ## Claims about the visibility selector -/

/-- C5: the visibility selector is deterministic — two calls with identical
`(targets, user_id, offset, k)` inputs return identical output sequences.  In
the embedding the seed, and through it the whole output, is a function of
exactly these inputs (src/fsub.py:50). -/
theorem visible_targets_deterministic (t t' : List String) (u u' o o' k k' : Nat)
    (ht : t = t') (hu : u = u') (ho : o = o') (hk : k = k') :
    visible_targets_for_user t u o k = visible_targets_for_user t' u' o' k' := by
  subst ht; subst hu; subst ho; subst hk; rfl

theorem visible_targets_deterministic_witness :
    (["@a", "@b"] : List String) = ["@a", "@b"] ∧
      visible_targets_for_user ["@a", "@b"] 5 2 3
        = visible_targets_for_user ["@a", "@b"] 5 2 3 :=
  ⟨rfl, visible_targets_deterministic ["@a", "@b"] ["@a", "@b"] 5 5 2 2 3 3
    rfl rfl rfl rfl⟩

/-- C6: for every target list and `k ≥ 1`, the selector returns exactly
`min k |targets|` elements, all drawn from the input list. -/
theorem visible_targets_length_and_mem (targets : List String) (u o k : Nat)
    (hk : 1 ≤ k) :
    (visible_targets_for_user targets u o k).length = min k targets.length ∧
      ∀ x ∈ visible_targets_for_user targets u o k, x ∈ targets := by
  match targets with
  | [] =>
    constructor
    · simp [visible_targets_for_user]
    · intro x hx
      simp [visible_targets_for_user] at hx
  | a :: as =>
    have hperm := seededShuffle_perm
      (Nat.xor (Nat.xor (u * 1000003) (o * 9176)) (a :: as).length) (a :: as)
    have hlen := hperm.length_eq
    constructor
    · show (List.take (max 1 (min k (a :: as).length)) _).length = _
      rw [List.length_take, hlen]
      have h1 : 1 ≤ (a :: as).length := Nat.succ_le_succ (Nat.zero_le _)
      omega
    · intro x hx
      have hx2 : x ∈ seededShuffle
          (Nat.xor (Nat.xor (u * 1000003) (o * 9176)) (a :: as).length) (a :: as) :=
        List.take_subset _ _ hx
      exact hperm.mem_iff.mp hx2

theorem visible_targets_length_and_mem_witness :
    1 ≤ 2 ∧
      (visible_targets_for_user ["@a", "@b", "@c"] 1 0 2).length
        = min 2 (["@a", "@b", "@c"] : List String).length ∧
      ("@b" : String) ∈ (["@a", "@b", "@c"] : List String) :=
  ⟨by decide, (visible_targets_length_and_mem ["@a", "@b", "@c"] 1 0 2 (by decide)).1,
    (visible_targets_length_and_mem ["@a", "@b", "@c"] 1 0 2 (by decide)).2
      "@b" (by decide)⟩

/-! ## Claims about the membership verifier -/

/-- C7: `all_joined` on the empty list is `true`, and if any single target's
membership query errors or reports "left"/"kicked", the verdict is `false`
regardless of the other targets — verification fails closed. -/
theorem all_joined_fails_closed (env : String → Nat → MemberResult) (u : Nat)
    (targets : List String) (t : String) (hmem : t ∈ targets)
    (hbad : env (split_target t).1 u = .queryError ∨
      env (split_target t).1 u = .ok (some "left") ∨
      env (split_target t).1 u = .ok (some "kicked")) :
    is_user_joined_all env u [] = true ∧
      is_user_joined_all env u targets = false := by
  refine ⟨rfl, ?_⟩
  induction targets with
  | nil => cases hmem
  | cons raw rest ih =>
    show (match env (split_target raw).1 u with
      | .queryError => false
      | .ok status =>
        if status = some "left" ∨ status = some "kicked" then false
        else is_user_joined_all env u rest) = false
    rcases List.mem_cons.mp hmem with heq | hrest
    · subst heq
      rcases hbad with h | h | h <;> rw [h] <;> simp
    · cases henv : env (split_target raw).1 u with
      | queryError => rfl
      | ok status =>
        by_cases hs : status = some "left" ∨ status = some "kicked"
        · simp [hs]
        · simp only [if_neg hs]
          exact ih hrest

theorem all_joined_fails_closed_witness :
    ("@a" : String) ∈ (["@b", "@a"] : List String) ∧
      is_user_joined_all (fun c _ => if c = "@a" then .queryError else .ok none) 7 [] = true ∧
      is_user_joined_all (fun c _ => if c = "@a" then .queryError else .ok none) 7 ["@b", "@a"] = false := by
  refine ⟨by decide, ?_, ?_⟩
  · exact (all_joined_fails_closed (fun c _ => if c = "@a" then .queryError else .ok none)
      7 ["@b", "@a"] "@a" (by decide) (Or.inl (by decide))).1
  · exact (all_joined_fails_closed (fun c _ => if c = "@a" then .queryError else .ok none)
      7 ["@b", "@a"] "@a" (by decide) (Or.inl (by decide))).2

/-- C10: a target whose query succeeds with any status other than
"left"/"kicked" — including a missing status attribute, read as `None` —
counts as joined and can never make `all_joined` false: if every target is in
that situation, the verdict is `true`. -/
theorem non_left_kicked_status_joined (env : String → Nat → MemberResult)
    (u : Nat) (targets : List String)
    (h : ∀ t ∈ targets, ∃ st : Option String,
      env (split_target t).1 u = .ok st ∧ st ≠ some "left" ∧ st ≠ some "kicked") :
    is_user_joined_all env u targets = true := by
  induction targets with
  | nil => rfl
  | cons raw rest ih =>
    obtain ⟨st, henv, hl, hk⟩ := h raw (List.mem_cons_self raw rest)
    show (match env (split_target raw).1 u with
      | .queryError => false
      | .ok status =>
        if status = some "left" ∨ status = some "kicked" then false
        else is_user_joined_all env u rest) = true
    rw [henv]
    have hcond : ¬ (st = some "left" ∨ st = some "kicked") := by
      rintro (h1 | h1)
      · exact hl h1
      · exact hk h1
    simp only [if_neg hcond]
    exact ih fun t ht => h t (List.mem_cons_of_mem raw ht)

theorem non_left_kicked_status_joined_witness :
    is_user_joined_all (fun c _ => if c = "@a" then MemberResult.ok none
      else MemberResult.ok (some "restricted")) 7 ["@a", "@b"] = true := by
  refine non_left_kicked_status_joined _ 7 _ ?_
  intro t ht
  rcases List.mem_cons.mp ht with h | h
  · subst h; exact ⟨none, by decide, by decide, by decide⟩
  · rcases List.mem_cons.mp h with h | h
    · subst h; exact ⟨some "restricted", by decide, by decide, by decide⟩
    · cases h

/-! ## Lemmas: trimming and first-split, for the target parser -/

theorem dropWhile_idem (p : α → Bool) :
    ∀ l : List α, (l.dropWhile p).dropWhile p = l.dropWhile p := by
  intro l
  induction l with
  | nil => rfl
  | cons x xs ih =>
    by_cases h : p x
    · simp [List.dropWhile_cons, h, ih]
    · simp [List.dropWhile_cons, h]

theorem dropWhile_append_block (p : Char → Bool) (m : Char) (hm : p m = false) :
    ∀ (a b : List Char), (a ++ m :: b).dropWhile p = a.dropWhile p ++ m :: b := by
  intro a b
  induction a with
  | nil => simp [List.dropWhile_cons, hm]
  | cons x xs ih =>
    by_cases h : p x
    · simpa [List.dropWhile_cons, h] using ih
    · simp [List.dropWhile_cons, h]

theorem drop_trail_append_block (m : Char) (hm : py_ws m = false)
    (a b : List Char) : drop_trail (a ++ m :: b) = a ++ m :: drop_trail b := by
  unfold drop_trail
  rw [show (a ++ m :: b).reverse = b.reverse ++ m :: a.reverse by
    simp]
  rw [dropWhile_append_block py_ws m hm]
  simp

theorem drop_trail_idem (l : List Char) : drop_trail (drop_trail l) = drop_trail l := by
  unfold drop_trail
  rw [List.reverse_reverse, dropWhile_idem]

theorem drop_trail_cons (c : Char) (xs : List Char) :
    drop_trail (c :: xs)
      = if drop_trail xs = [] then (if py_ws c then [] else [c])
        else c :: drop_trail xs := by
  unfold drop_trail
  rw [show (c :: xs).reverse = xs.reverse ++ [c] by simp]
  by_cases h : xs.reverse.dropWhile py_ws = []
  · rw [if_pos (by simp [h])]
    rw [List.dropWhile_append, if_pos (by simp [h])]
    by_cases hc : py_ws c
    · simp [List.dropWhile_cons, hc]
    · simp [List.dropWhile_cons, hc]
  · rw [if_neg (by simp [h])]
    rw [List.dropWhile_append, if_neg (by simpa using h)]
    simp

theorem dropWhile_drop_trail_comm :
    ∀ l : List Char, (drop_trail l).dropWhile py_ws = drop_trail (l.dropWhile py_ws) := by
  intro l
  induction l with
  | nil => rfl
  | cons c xs ih =>
    by_cases hc : py_ws c
    · have hr : (c :: xs).dropWhile py_ws = xs.dropWhile py_ws := by
        simp [List.dropWhile_cons, hc]
      rw [hr, ← ih, drop_trail_cons]
      by_cases h : drop_trail xs = []
      · rw [if_pos h, if_pos hc, h]
      · rw [if_neg h]
        simp [List.dropWhile_cons, hc]
    · have hr : (c :: xs).dropWhile py_ws = c :: xs := by
        simp [List.dropWhile_cons, hc]
      rw [hr, drop_trail_cons]
      by_cases h : drop_trail xs = []
      · rw [if_pos h, if_neg hc]
        simp [List.dropWhile_cons, hc]
      · rw [if_neg h]
        simp [List.dropWhile_cons, hc]

theorem strip_chars_dropWhile (a : List Char) :
    strip_chars (a.dropWhile py_ws) = strip_chars a := by
  unfold strip_chars
  rw [dropWhile_idem]

theorem strip_chars_drop_trail (b : List Char) :
    strip_chars (drop_trail b) = strip_chars b := by
  unfold strip_chars
  rw [dropWhile_drop_trail_comm, drop_trail_idem]

theorem split_first_append_of_not_mem (c : Char) :
    ∀ (a b : List Char), c ∉ a → split_first c (a ++ c :: b) = some (a, b) := by
  intro a b hmem
  induction a with
  | nil => simp [split_first]
  | cons x xs ih =>
    have hx : ¬ x = c := fun h => hmem (h ▸ List.mem_cons_self x xs)
    have hxs : c ∉ xs := fun h => hmem (List.mem_cons_of_mem x h)
    have hstep : split_first c ((x :: xs) ++ c :: b)
        = match split_first c (xs ++ c :: b) with
          | some p => some (x :: p.1, p.2)
          | none => none := by
      simp [split_first, if_neg hx]
    rw [hstep, ih hxs]

theorem split_target_of_split_first (raw : String) (p : List Char × List Char)
    (h : split_first '|' (strip_chars raw.data) = some p) :
    split_target raw = (⟨strip_chars p.1⟩, some ⟨strip_chars p.2⟩) := by
  simp only [split_target]
  rw [h]

/-! ## Claim about the target descriptor parser -/

/-- C9: the three specified parses hold, and in general a string containing
`|` is split once at the first occurrence with both parts trimmed
(src/fsub.py:10). -/
theorem split_target_spec :
    split_target "-100555|https://t.me/+abc" = ("-100555", some "https://t.me/+abc") ∧
      split_target "@pub" = ("@pub", some "https://t.me/pub") ∧
      split_target "-100555" = ("-100555", none) ∧
      ∀ a b : List Char, '|' ∉ a →
        split_target ⟨a ++ '|' :: b⟩ = (⟨strip_chars a⟩, some ⟨strip_chars b⟩) := by
  refine ⟨by decide, by decide, by decide, ?_⟩
  intro a b hmem
  have hpipe : py_ws '|' = false := by decide
  have hstrip : strip_chars (a ++ '|' :: b)
      = a.dropWhile py_ws ++ '|' :: drop_trail b := by
    unfold strip_chars
    rw [dropWhile_append_block py_ws '|' hpipe,
      drop_trail_append_block '|' hpipe]
  have hmem2 : '|' ∉ a.dropWhile py_ws :=
    fun h => hmem ((List.dropWhile_sublist _).subset h)
  have hsf : split_first '|' (strip_chars (String.mk (a ++ '|' :: b)).data)
      = some (a.dropWhile py_ws, drop_trail b) := by
    show split_first '|' (strip_chars (a ++ '|' :: b)) = _
    rw [hstrip]
    exact split_first_append_of_not_mem '|' _ _ hmem2
  rw [split_target_of_split_first _ _ hsf]
  rw [show strip_chars (a.dropWhile py_ws) = strip_chars a from strip_chars_dropWhile a,
    show strip_chars (drop_trail b) = strip_chars b from strip_chars_drop_trail b]

theorem split_target_spec_witness :
    ('|' ∉ (['x', ' '] : List Char)) ∧
      split_target ⟨['x', ' '] ++ '|' :: [' ', 'y']⟩
        = (⟨strip_chars ['x', ' ']⟩, some ⟨strip_chars [' ', 'y']⟩) :=
  ⟨by decide, split_target_spec.2.2.2 ['x', ' '] [' ', 'y'] (by decide)⟩

/-! ## Lemmas about the store operations -/

theorem setState_states_self (s : Store) (u : Nat) (st : UserFsubState) :
    (setState s u st).states u = some st := by
  simp [setState]

theorem setState_skips (s : Store) (u : Nat) (st : UserFsubState) :
    (setState s u st).skips = s.skips := rfl

theorem setState_files (s : Store) (u : Nat) (st : UserFsubState) :
    (setState s u st).files = s.files := rfl

theorem get_user_state_of_some (s : Store) (u : Nat) (st : UserFsubState)
    (h : s.states u = some st) : get_user_state s u = (s, st) := by
  unfold get_user_state
  rw [h]

theorem bump_rotate_of_some (s : Store) (u now : Nat) (st : UserFsubState)
    (h : s.states u = some st) :
    bump_rotate s u now
      = (setState s u ⟨u, st.offset + 1, st.last_gate_key, now⟩,
          ⟨u, st.offset + 1, st.last_gate_key, now⟩) := by
  unfold bump_rotate
  rw [get_user_state_of_some s u st h]

theorem set_last_gate_key_of_some (s : Store) (u : Nat) (key : String)
    (st : UserFsubState) (h : s.states u = some st) :
    set_last_gate_key s u key
      = setState s u ⟨st.user_id, st.offset, key, st.last_rotated_ts⟩ := by
  unfold set_last_gate_key
  rw [h]

theorem inc_skip_states (s : Store) (c : String) (n : Nat) :
    (inc_skip s c n).states = s.states := rfl

theorem inc_skips_for_states (batch : List String) :
    ∀ s : Store, (inc_skips_for s batch).states = s.states := by
  induction batch with
  | nil => intro s; rfl
  | cons raw rest ih =>
    intro s
    show (inc_skips_for (inc_skip s (split_target raw).1 1) rest).states = s.states
    rw [ih]
    rfl

theorem inc_skips_for_skips (batch : List String) :
    ∀ (s : Store) (c : String),
      (inc_skips_for s batch).skips c
        = s.skips c + (batch.map (fun r => (split_target r).1)).count c := by
  induction batch with
  | nil => intro s c; rfl
  | cons raw rest ih =>
    intro s c
    show (inc_skips_for (inc_skip s (split_target raw).1 1) rest).skips c
      = s.skips c + ((split_target raw).1 :: rest.map (fun r => (split_target r).1)).count c
    rw [ih, List.count_cons]
    show (if c = (split_target raw).1 then s.skips c + 1 else s.skips c) + _ = _
    by_cases h : c = (split_target raw).1
    · rw [if_pos h, if_pos (beq_iff_eq.mpr h.symm)]
      omega
    · rw [if_neg h, if_neg (fun hb => h (beq_iff_eq.mp hb).symm)]
      omega

/-! ## Claim: lazy default creation (`get_user_state`) -/

/-- C4: for a user with no stored record, `get_user_state` creates, persists
and returns the zero default `offset = 0`, `last_gate_key = ""`,
`last_rotated_ts = 0` (src/storage.py:110; `last_gate_key` is the
spec-modelled column, §3). -/
theorem get_user_state_creates_default (s : Store) (u : Nat)
    (h : s.states u = none) :
    (get_user_state s u).2 = ⟨u, 0, "", 0⟩ ∧
      ((get_user_state s u).1).states u = some ⟨u, 0, "", 0⟩ := by
  unfold get_user_state
  rw [h]
  exact ⟨rfl, setState_states_self s u _⟩

theorem get_user_state_creates_default_witness :
    (⟨fun _ => none, fun _ => none, fun _ => 0⟩ : Store).states 3 = none ∧
      (get_user_state ⟨fun _ => none, fun _ => none, fun _ => 0⟩ 3).2 = ⟨3, 0, "", 0⟩ ∧
      ((get_user_state ⟨fun _ => none, fun _ => none, fun _ => 0⟩ 3).1).states 3
        = some ⟨3, 0, "", 0⟩ :=
  ⟨rfl, (get_user_state_creates_default _ 3 rfl).1,
    (get_user_state_creates_default _ 3 rfl).2⟩

/-! ## Claim: rotate cooldown -/

/-- C2: an explicit rotate issued before `rotate_seconds` have elapsed since
`last_rotated_ts` yields the transient rejection and returns the store
unchanged — in particular `offset` and `last_rotated_ts` are untouched.
(The rotate handler is modelled from the spec, §4.4.) -/
theorem rotate_cooldown_rejects (targets : List String) (k rs now : Nat)
    (s : Store) (u : Nat) (st : UserFsubState)
    (hst : s.states u = some st)
    (hcool : now - st.last_rotated_ts < rs) :
    rotate_action targets k rs now s u = (.rejected, s) := by
  unfold rotate_action
  rw [get_user_state_of_some s u st hst]
  simp [hcool]

theorem rotate_cooldown_rejects_witness :
    (⟨fun _ => none, fun v => if v = 1 then some ⟨1, 4, "", 100⟩ else none,
        fun _ => 0⟩ : Store).states 1 = some ⟨1, 4, "", 100⟩ ∧
      (130 : Nat) - (100 : Nat) < 60 ∧
      rotate_action ["@a"] 4 60 130
          ⟨fun _ => none, fun v => if v = 1 then some ⟨1, 4, "", 100⟩ else none,
            fun _ => 0⟩ 1
        = (.rejected,
            ⟨fun _ => none, fun v => if v = 1 then some ⟨1, 4, "", 100⟩ else none,
              fun _ => 0⟩) :=
  ⟨rfl, by decide,
    rotate_cooldown_rejects ["@a"] 4 60 130 _ 1 ⟨1, 4, "", 100⟩ rfl (by decide)⟩

/-! ## Claim: abandonment accounting on gate-key change (`_send_gate`) -/

theorem send_gate_eq_of_changed (targets : List String) (k now : Nat)
    (s : Store) (u : Nat) (st : UserFsubState) (file_id : Option String)
    (hst : s.states u = some st)
    (hne : st.last_gate_key ≠ "")
    (hdiff : st.last_gate_key ≠ gate_key_of file_id) :
    send_gate targets k now s u file_id
      = (setState
          (setState
            (inc_skips_for s (visible_targets_for_user targets u st.offset k)) u
            ⟨u, st.offset + 1, st.last_gate_key, now⟩) u
          ⟨u, st.offset + 1, gate_key_of file_id, now⟩,
        ⟨u, st.offset + 1, gate_key_of file_id, now⟩) := by
  have hs1 : (inc_skips_for s (visible_targets_for_user targets u st.offset k)).states u
      = some st := by
    rw [inc_skips_for_states]
    exact hst
  have hbump : bump_rotate
      (inc_skips_for s (visible_targets_for_user targets u st.offset k)) u now
      = (setState (inc_skips_for s (visible_targets_for_user targets u st.offset k)) u
          ⟨u, st.offset + 1, st.last_gate_key, now⟩,
        ⟨u, st.offset + 1, st.last_gate_key, now⟩) :=
    bump_rotate_of_some _ u now st hs1
  have hset : set_last_gate_key
      (setState (inc_skips_for s (visible_targets_for_user targets u st.offset k)) u
        ⟨u, st.offset + 1, st.last_gate_key, now⟩) u (gate_key_of file_id)
      = setState
          (setState (inc_skips_for s (visible_targets_for_user targets u st.offset k)) u
            ⟨u, st.offset + 1, st.last_gate_key, now⟩) u
          ⟨u, st.offset + 1, gate_key_of file_id, now⟩ :=
    set_last_gate_key_of_some _ u _ _ (setState_states_self _ u _)
  have hp2 : (if st.last_gate_key ≠ "" ∧ st.last_gate_key ≠ gate_key_of file_id then
      bump_rotate
        (inc_skips_for s (visible_targets_for_user targets u st.offset k)) u now
    else (s, st))
      = (setState (inc_skips_for s (visible_targets_for_user targets u st.offset k)) u
          ⟨u, st.offset + 1, st.last_gate_key, now⟩,
        ⟨u, st.offset + 1, st.last_gate_key, now⟩) := by
    rw [if_pos ⟨hne, hdiff⟩, hbump]
  have hgoal : send_gate targets k now s u file_id
      = (if ((if st.last_gate_key ≠ "" ∧ st.last_gate_key ≠ gate_key_of file_id then
            bump_rotate
              (inc_skips_for s (visible_targets_for_user targets u st.offset k)) u now
          else (s, st))).2.last_gate_key ≠ gate_key_of file_id then
          get_user_state
            (set_last_gate_key
              ((if st.last_gate_key ≠ "" ∧ st.last_gate_key ≠ gate_key_of file_id then
                  bump_rotate
                    (inc_skips_for s (visible_targets_for_user targets u st.offset k))
                    u now
                else (s, st))).1 u (gate_key_of file_id)) u
        else
          (if st.last_gate_key ≠ "" ∧ st.last_gate_key ≠ gate_key_of file_id then
            bump_rotate
              (inc_skips_for s (visible_targets_for_user targets u st.offset k)) u now
          else (s, st))) := by
    show (let gk := gate_key_of file_id
      let p1 := get_user_state s u
      let p2 :=
        if p1.2.last_gate_key ≠ "" ∧ p1.2.last_gate_key ≠ gk then
          let prev := visible_targets_for_user targets u p1.2.offset k
          bump_rotate (inc_skips_for p1.1 prev) u now
        else p1
      if p2.2.last_gate_key ≠ gk then
        get_user_state (set_last_gate_key p2.1 u gk) u
      else p2) = _
    rw [get_user_state_of_some s u st hst]
  rw [hgoal, hp2]
  have hcond : (setState
      (inc_skips_for s (visible_targets_for_user targets u st.offset k)) u
      ⟨u, st.offset + 1, st.last_gate_key, now⟩,
    (⟨u, st.offset + 1, st.last_gate_key, now⟩ : UserFsubState)).2.last_gate_key
      ≠ gate_key_of file_id := hdiff
  rw [if_pos hcond]
  show get_user_state (set_last_gate_key
    (setState (inc_skips_for s (visible_targets_for_user targets u st.offset k)) u
      ⟨u, st.offset + 1, st.last_gate_key, now⟩) u (gate_key_of file_id)) u = _
  rw [hset]
  exact get_user_state_of_some _ u _ (setState_states_self _ u _)

/-- C3: when the stored `last_gate_key` is non-empty and differs from the new
gate key, entering the gate charges exactly one skip to each target visible
under the current offset (and none to any other handle), then bumps the
offset by one with `last_rotated_ts = now`, then stores the new gate key
(src/app.py:126-149). -/
theorem gate_key_change_skips_and_bumps (targets : List String) (k now : Nat)
    (s : Store) (u : Nat) (st : UserFsubState) (file_id : Option String)
    (hst : s.states u = some st)
    (hne : st.last_gate_key ≠ "")
    (hdiff : st.last_gate_key ≠ gate_key_of file_id)
    (hnodup : ((visible_targets_for_user targets u st.offset k).map
      (fun r => (split_target r).1)).Nodup) :
    (send_gate targets k now s u file_id).2
        = ⟨u, st.offset + 1, gate_key_of file_id, now⟩ ∧
      ((send_gate targets k now s u file_id).1).states u
        = some ⟨u, st.offset + 1, gate_key_of file_id, now⟩ ∧
      (∀ t ∈ visible_targets_for_user targets u st.offset k,
        ((send_gate targets k now s u file_id).1).skips (split_target t).1
          = s.skips (split_target t).1 + 1) ∧
      ∀ c : String,
        c ∉ (visible_targets_for_user targets u st.offset k).map
          (fun r => (split_target r).1) →
        ((send_gate targets k now s u file_id).1).skips c = s.skips c := by
  rw [send_gate_eq_of_changed targets k now s u st file_id hst hne hdiff]
  refine ⟨rfl, setState_states_self _ u _, ?_, ?_⟩
  · intro t ht
    show (inc_skips_for s (visible_targets_for_user targets u st.offset k)).skips
        (split_target t).1 = _
    rw [inc_skips_for_skips]
    have hmem : (split_target t).1
        ∈ (visible_targets_for_user targets u st.offset k).map
          (fun r => (split_target r).1) :=
      List.mem_map_of_mem _ ht
    rw [List.count_eq_one_of_mem hnodup hmem]
  · intro c hc
    show (inc_skips_for s (visible_targets_for_user targets u st.offset k)).skips c = _
    rw [inc_skips_for_skips, List.count_eq_zero_of_not_mem hc]
    omega

/-- Concrete store for the gate-entry and done-check witnesses: user 1 is
mid-episode on gate key "F1". -/
def store0 : Store :=
  ⟨fun _ => none, fun v => if v = 1 then some ⟨1, 0, "F1", 0⟩ else none, fun _ => 0⟩

theorem gate_key_change_skips_and_bumps_witness :
    store0.states 1 = some ⟨1, 0, "F1", 0⟩ ∧
      (send_gate ["@a", "@b"] 4 99 store0 1 (some "F2")).2 = ⟨1, 1, "F2", 99⟩ ∧
      ((send_gate ["@a", "@b"] 4 99 store0 1 (some "F2")).1).states 1
        = some ⟨1, 1, "F2", 99⟩ ∧
      ((send_gate ["@a", "@b"] 4 99 store0 1 (some "F2")).1).skips
          (split_target "@b").1
        = store0.skips (split_target "@b").1 + 1 := by
  have h := gate_key_change_skips_and_bumps ["@a", "@b"] 4 99 store0 1
    ⟨1, 0, "F1", 0⟩ (some "F2") rfl (by decide) (by decide) (by decide)
  exact ⟨rfl, h.1, h.2.1, h.2.2.1 "@b" (by decide)⟩

/-! ## Claim: done-check and release (`done_cb`) -/

theorem set_last_gate_key_files (s : Store) (u : Nat) (key : String) :
    (set_last_gate_key s u key).files = s.files := by
  unfold set_last_gate_key
  cases h : s.states u
  · rfl
  · rfl

theorem done_cb_of_not_joined (env : String → Nat → MemberResult)
    (targets : List String) (s : Store) (u : Nat) (chat : Int) (data : String)
    (copyOk : Bool)
    (hdata : starts_with data.data "fsub_done:".data = true)
    (hjf : is_user_joined_all env u targets = false) :
    done_cb env targets s u chat data copyOk
      = (s, [Effect.answerAlert "Masih belum join semua."]) := by
  show (if ¬ starts_with data.data "fsub_done:".data then (s, [Effect.answerPlain])
    else if is_user_joined_all env u targets = false then
      (s, [Effect.answerAlert "Masih belum join semua."])
    else
      (set_last_gate_key s u "",
        Effect.answerPlain :: Effect.deleteGateMessage ::
          (if py_truthy (if py_strip (after_first_colon data) = "__none__" then none
              else some (py_strip (after_first_colon data))) then
            send_file (set_last_gate_key s u "") chat copyOk
              (py_strip (after_first_colon data))
          else [Effect.sendMessage chat "✅ Oke, akses kebuka."]))) = _
  rw [if_neg (fun hcon => hcon hdata), if_pos hjf]

theorem done_cb_of_joined (env : String → Nat → MemberResult)
    (targets : List String) (s : Store) (u : Nat) (chat : Int) (data : String)
    (copyOk : Bool)
    (hdata : starts_with data.data "fsub_done:".data = true)
    (hjoined : is_user_joined_all env u targets = true) :
    done_cb env targets s u chat data copyOk
      = (set_last_gate_key s u "",
          Effect.answerPlain :: Effect.deleteGateMessage ::
            (if py_truthy (if py_strip (after_first_colon data) = "__none__" then none
                else some (py_strip (after_first_colon data))) then
              send_file (set_last_gate_key s u "") chat copyOk
                (py_strip (after_first_colon data))
            else [Effect.sendMessage chat "✅ Oke, akses kebuka."])) := by
  show (if ¬ starts_with data.data "fsub_done:".data then (s, [Effect.answerPlain])
    else if is_user_joined_all env u targets = false then
      (s, [Effect.answerAlert "Masih belum join semua."])
    else
      (set_last_gate_key s u "",
        Effect.answerPlain :: Effect.deleteGateMessage ::
          (if py_truthy (if py_strip (after_first_colon data) = "__none__" then none
              else some (py_strip (after_first_colon data))) then
            send_file (set_last_gate_key s u "") chat copyOk
              (py_strip (after_first_colon data))
          else [Effect.sendMessage chat "✅ Oke, akses kebuka."]))) = _
  rw [if_neg (fun hcon => hcon hdata),
    if_neg (fun h => absurd (hjoined.symm.trans h) (by decide))]

/-- C8: on a successful done-check, `last_gate_key` is cleared to the empty
string and — for a gate key identifying a file (truthy: neither the
`__none__` sentinel nor the falsy empty string) with a stored record — the
transport copy is invoked with the record's stored chat/message location; for
the none-sentinel gate key, the plain access-granted message is sent and no
copy is invoked; when not all targets are joined, only the transient alert is
emitted and the store is unchanged (src/app.py:221-251, src/app.py:173-187). -/
theorem done_check_release_behavior (env : String → Nat → MemberResult)
    (targets : List String) (s : Store) (u : Nat) (chat : Int) (data : String)
    (copyOk : Bool) (st : UserFsubState) (r : FileRecord)
    (hdata : starts_with data.data "fsub_done:".data = true)
    (hst : s.states u = some st) :
    (is_user_joined_all env u targets = false →
      done_cb env targets s u chat data copyOk
        = (s, [Effect.answerAlert "Masih belum join semua."])) ∧
      (is_user_joined_all env u targets = true →
        py_strip (after_first_colon data) ≠ "__none__" →
        py_strip (after_first_colon data) ≠ "" →
        s.files (py_strip (after_first_colon data)) = some r →
        ((done_cb env targets s u chat data copyOk).1).states u
            = some ⟨st.user_id, st.offset, "", st.last_rotated_ts⟩ ∧
          Effect.copyMessage chat r.db_chat_id r.db_message_id
            ∈ (done_cb env targets s u chat data copyOk).2) ∧
      (is_user_joined_all env u targets = true →
        py_strip (after_first_colon data) = "__none__" →
        ((done_cb env targets s u chat data copyOk).1).states u
            = some ⟨st.user_id, st.offset, "", st.last_rotated_ts⟩ ∧
          Effect.sendMessage chat "✅ Oke, akses kebuka."
            ∈ (done_cb env targets s u chat data copyOk).2 ∧
          ∀ (c f : Int) (m : Int),
            Effect.copyMessage c f m ∉ (done_cb env targets s u chat data copyOk).2) := by
  have hclear : (set_last_gate_key s u "").states u
      = some ⟨st.user_id, st.offset, "", st.last_rotated_ts⟩ := by
    rw [set_last_gate_key_of_some s u "" st hst]
    exact setState_states_self _ u _
  refine ⟨fun hjf => done_cb_of_not_joined env targets s u chat data copyOk hdata hjf,
    fun hj hfid hfid0 hrec => ?_, fun hj hfid => ?_⟩
  · rw [done_cb_of_joined env targets s u chat data copyOk hdata hj]
    have hopt : (if py_strip (after_first_colon data) = "__none__" then none
        else some (py_strip (after_first_colon data))) =
          some (py_strip (after_first_colon data)) := if_neg hfid
    have htr : py_truthy (some (py_strip (after_first_colon data))) = true := by
      show (if py_strip (after_first_colon data) = "" then false else true) = true
      rw [if_neg hfid0]
    rw [hopt, if_pos htr]
    refine ⟨hclear, ?_⟩
    have hrec2 : (set_last_gate_key s u "").files (py_strip (after_first_colon data))
        = some r := by
      rw [set_last_gate_key_files]
      exact hrec
    show Effect.copyMessage chat r.db_chat_id r.db_message_id
      ∈ Effect.answerPlain :: Effect.deleteGateMessage ::
        send_file (set_last_gate_key s u "") chat copyOk
          (py_strip (after_first_colon data))
    unfold send_file
    rw [hrec2]
    simp [List.mem_cons]
  · rw [done_cb_of_joined env targets s u chat data copyOk hdata hj]
    have hopt : (if py_strip (after_first_colon data) = "__none__" then none
        else some (py_strip (after_first_colon data))) = (none : Option String) :=
      if_pos hfid
    rw [hopt, if_neg (fun hcon : py_truthy none = true => by cases hcon)]
    refine ⟨hclear, by simp [List.mem_cons], ?_⟩
    intro c f m
    simp [List.mem_cons]

/-- Concrete store for the done-check witness: user 1 gated on "F2", record
for "F2" present. -/
def store1 : Store :=
  ⟨fun f => if f = "F2" then some ⟨"F2", -100, 7, "document", none⟩ else none,
    fun v => if v = 1 then some ⟨1, 0, "F2", 5⟩ else none, fun _ => 0⟩

theorem done_check_release_behavior_witness :
    (starts_with ("fsub_done:F2" : String).data ("fsub_done:" : String).data = true ∧
      store1.states 1 = some ⟨1, 0, "F2", 5⟩ ∧
      is_user_joined_all (fun _ _ => .ok none) 1 ["@a"] = true ∧
      py_strip (after_first_colon "fsub_done:F2") ≠ "__none__" ∧
      py_strip (after_first_colon "fsub_done:F2") ≠ "" ∧
      store1.files (py_strip (after_first_colon "fsub_done:F2"))
        = some ⟨"F2", -100, 7, "document", none⟩ ∧
      ((done_cb (fun _ _ => .ok none) ["@a"] store1 1 42 "fsub_done:F2" true).1).states 1
        = some ⟨1, 0, "", 5⟩ ∧
      Effect.copyMessage 42 (-100) 7
        ∈ (done_cb (fun _ _ => .ok none) ["@a"] store1 1 42 "fsub_done:F2" true).2) ∧
      (is_user_joined_all (fun _ _ => .queryError) 1 ["@a"] = false ∧
        done_cb (fun _ _ => .queryError) ["@a"] store1 1 42 "fsub_done:F2" true
          = (store1, [Effect.answerAlert "Masih belum join semua."])) ∧
      (py_strip (after_first_colon "fsub_done:__none__") = "__none__" ∧
        Effect.sendMessage 42 "✅ Oke, akses kebuka."
          ∈ (done_cb (fun _ _ => .ok none) ["@a"] store1 1 42 "fsub_done:__none__" true).2 ∧
        Effect.copyMessage 42 (-100) 7
          ∉ (done_cb (fun _ _ => .ok none) ["@a"] store1 1 42 "fsub_done:__none__" true).2) := by
  have h1 := done_check_release_behavior (fun _ _ => .ok none) ["@a"] store1 1 42
    "fsub_done:F2" true ⟨1, 0, "F2", 5⟩ ⟨"F2", -100, 7, "document", none⟩
    (by decide) rfl
  have h2 := done_check_release_behavior (fun _ _ => .queryError) ["@a"] store1 1 42
    "fsub_done:F2" true ⟨1, 0, "F2", 5⟩ ⟨"F2", -100, 7, "document", none⟩
    (by decide) rfl
  have h3 := done_check_release_behavior (fun _ _ => .ok none) ["@a"] store1 1 42
    "fsub_done:__none__" true ⟨1, 0, "F2", 5⟩ ⟨"F2", -100, 7, "document", none⟩
    (by decide) rfl
  have hb := h1.2.1 (by decide) (by decide) (by decide) rfl
  have hc := h3.2.2 (by decide) (by decide)
  exact ⟨⟨by decide, rfl, by decide, by decide, by decide, rfl, hb.1, hb.2⟩,
    ⟨by decide, h2.1 (by decide)⟩,
    ⟨by decide, hc.2.1, hc.2.2 42 (-100) 7⟩⟩

/-! ## Claim: atomicity of concurrent `bump_rotate` -/

/-- C1 counterexample: a valid interleaving of two concurrent SQLite
`bump_rotate` calls (both read offset `0` before either writes) leaves the
stored offset at `1`, not `0 + 2` — the read-modify-write of
src/storage.py:126-135 loses an update, so the increment is not atomic. -/
theorem sqlite_bump_lost_update :
    isSqliteSchedule
        [BumpEv.readOff 0, BumpEv.readOff 1, BumpEv.writeOff 0, BumpEv.writeOff 1] 2 ∧
      (runEvs ⟨0, fun _ => 0⟩
          [BumpEv.readOff 0, BumpEv.readOff 1, BumpEv.writeOff 0, BumpEv.writeOff 1]).offset
        = 1 := by
  refine ⟨⟨?_, ?_⟩, ?_⟩
  · decide
  · decide
  · rfl

theorem runEvs_atomic :
    ∀ (evs : List BumpEv) (s : ConcState),
      (∀ e ∈ evs, ∃ p, e = BumpEv.atomicInc p) →
      (runEvs s evs).offset = s.offset + evs.length := by
  intro evs
  induction evs with
  | nil => intro s _; rfl
  | cons e rest ih =>
    intro s h
    obtain ⟨p, hp⟩ := h e (List.mem_cons_self e rest)
    subst hp
    have hstep : runEvs s (BumpEv.atomicInc p :: rest)
        = runEvs ⟨s.offset + 1, s.regs⟩ rest := rfl
    rw [hstep, ih _ (fun e he => h e (List.mem_cons_of_mem _ he))]
    simp [List.length_cons]
    omega

/-- C1 amended: the Mongo backend's `bump_rotate` is a single atomic `$inc`
(src/storage.py:204-214), so every interleaving of `n` concurrent bumps —
i.e. every permutation of the `n` atomic increments — raises the offset by
exactly `n`: no update is lost. -/
theorem mongo_bump_increments_by_n (evs : List BumpEv) (n : Nat) (s : ConcState)
    (h : isMongoSchedule evs n) : (runEvs s evs).offset = s.offset + n := by
  have hatomic : ∀ e ∈ evs, ∃ p, e = BumpEv.atomicInc p := by
    intro e he
    have : e ∈ (List.range n).map BumpEv.atomicInc := h.mem_iff.mp he
    obtain ⟨p, _, hp⟩ := List.mem_map.mp this
    exact ⟨p, hp.symm⟩
  have hlen : evs.length = n := by
    rw [h.length_eq, List.length_map, List.length_range]
  rw [runEvs_atomic evs s hatomic, hlen]

theorem mongo_bump_increments_by_n_witness :
    isMongoSchedule [BumpEv.atomicInc 1, BumpEv.atomicInc 0] 2 ∧
      (runEvs ⟨0, fun _ => 0⟩ [BumpEv.atomicInc 1, BumpEv.atomicInc 0]).offset
        = 0 + 2 := by
  have hperm : isMongoSchedule [BumpEv.atomicInc 1, BumpEv.atomicInc 0] 2 := by
    show List.Perm [BumpEv.atomicInc 1, BumpEv.atomicInc 0]
      ((List.range 2).map BumpEv.atomicInc)
    exact List.Perm.swap (BumpEv.atomicInc 0) (BumpEv.atomicInc 1) []
  exact ⟨hperm, mongo_bump_increments_by_n _ 2 ⟨0, fun _ => 0⟩ hperm⟩

end FsubVerify

